import Mathlib

/-!
Shallow embedding of `untl_to_zotero_rdf.py`, a batch converter from UNTL
metadata field bags to Zotero RDF records.  Python dictionaries with fixed
string keys become Lean structures; dictionary `.get(key, default)` on a
possibly-missing field becomes a structure field that defaults to the empty
list or empty string; the `MEETING_PATTERN` regular expression is embedded as
an explicit leftmost-longest backtracking matcher; ElementTree elements become
a small XML tree type; CPython's object aliasing for the mutable default
argument of `ZoteroXML.__init__` is made explicit with a heap of list cells.
-/

set_option autoImplicit false

namespace UntlZotero

/-- One flat UNTL metadata entry: a dictionary with `qualifier` and string
`content` keys; a missing key behaves as the empty string, matching
`entry.get('qualifier', '')` / `entry.get('content', '')` in the source. -/
structure SEntry where
  qualifier : String
  content : String
  deriving DecidableEq, Repr

/-- Structured content of a creator entry: `content` is a nested dictionary
with `type` and `name` keys, as consumed by `get_presenters`. -/
structure NameContent where
  type : String
  name : String
  deriving DecidableEq, Repr

/-- One creator entry, whose `content` is the structured name dictionary. -/
structure CEntry where
  qualifier : String
  content : NameContent
  deriving DecidableEq, Repr

/-- The generic UNTL record: a dictionary from field name to an ordered list
of entries.  `untl_data.get(field, [])` returns `[]` when the field is
absent, so an absent field and a field holding the empty list coincide and
each field simply defaults to `[]`. -/
structure FieldBag where
  identifier : List SEntry := []
  title : List SEntry := []
  subject : List SEntry := []
  description : List SEntry := []
  date : List SEntry := []
  rights : List SEntry := []
  language : List SEntry := []
  creator : List CEntry := []
  relation : List SEntry := []
  source : List SEntry := []
  deriving DecidableEq, Repr

/-- The fixed `ACCESS` lookup table: `ACCESS.get(access, access)` maps the
code `public` to the rights URI and passes every other code through. -/
def ACCESS_lookup (code : String) : String :=
  if code = "public" then
    "https://digital2.library.unt.edu/vocabularies/rights-access/#public"
  else code

/-- `ZoteroItem.get_about_uri`: scan `identifier` entries; every entry whose
qualifier is `itemURL` overwrites the result (the loop has no `break` and no
non-emptiness test), so the last match wins. -/
def get_about_uri (bag : FieldBag) : String :=
  bag.identifier.foldl
    (fun uri e => if e.qualifier = "itemURL" then e.content else uri) ""

/-- `ZoteroItem.get_title`: first `title` entry whose qualifier is
`officialtitle` and whose content is non-empty (the `break` sits inside
`if title_value:`, so empty-content matches are passed over). -/
def get_title (bag : FieldBag) : String :=
  match bag.title.find?
      (fun e => e.qualifier = "officialtitle" && e.content ≠ "") with
  | some e => e.content
  | none => ""

/-- `ZoteroItem.get_subjects`: contents of all `subject` entries with
non-empty content, in order. -/
def get_subjects (bag : FieldBag) : List String :=
  (bag.subject.map (fun e => e.content)).filter (fun c => c ≠ "")

/-- `ZoteroItem.get_abstract`: first `description` entry with qualifier
`content` and non-empty content. -/
def get_abstract (bag : FieldBag) : String :=
  match bag.description.find?
      (fun e => e.qualifier = "content" && e.content ≠ "") with
  | some e => e.content
  | none => ""

/-- `ZoteroItem.get_creation_date`: first `date` entry with qualifier
`creation` and non-empty content. -/
def get_creation_date (bag : FieldBag) : String :=
  match bag.date.find?
      (fun e => e.qualifier = "creation" && e.content ≠ "") with
  | some e => e.content
  | none => ""

/-- `ZoteroItem.get_access`: first `rights` entry with qualifier `access`
and non-empty content, passed through the `ACCESS` table. -/
def get_access (bag : FieldBag) : String :=
  ACCESS_lookup
    (match bag.rights.find?
        (fun e => e.qualifier = "access" && e.content ≠ "") with
     | some e => e.content
     | none => "")

/-- `ZoteroItem.get_languages`: contents of all `language` entries with
non-empty content, in order. -/
def get_languages (bag : FieldBag) : List String :=
  (bag.language.map (fun e => e.content)).filter (fun c => c ≠ "")

/-- `ZoteroPresentation.get_relations`: contents of all `relation` entries
with non-empty content, in order. -/
def get_relations (bag : FieldBag) : List String :=
  (bag.relation.map (fun e => e.content)).filter (fun c => c ≠ "")

/-- `ZoteroPresentation.get_description`: concatenation of
`"Related to: " ++ relation ++ ".\n"` over the extracted relations; the
empty string when there are none. -/
def get_description (bag : FieldBag) : String :=
  String.join ((get_relations bag).map
    (fun r => "Related to: " ++ r ++ ".\n"))

/-- A Zotero presenter: surname and given name, mirroring the dictionary
built by `get_presenters`. -/
structure Presenter where
  surname : String
  given_name : String
  deriving DecidableEq, Repr

/-- Python `name.split(',', 1)` on a character list: everything before the
first comma, and — when a comma occurs — everything after it. -/
def splitFirstComma : List Char → List Char × Option (List Char)
  | [] => ([], none)
  | c :: rest =>
    if c = ',' then ([], some rest)
    else (c :: (splitFirstComma rest).1, (splitFirstComma rest).2)

/-- Python `str.strip()`: drop whitespace from both ends. -/
def stripChars (l : List Char) : List Char :=
  ((l.dropWhile Char.isWhitespace).reverse.dropWhile Char.isWhitespace).reverse

/-- The name-splitting step of `get_presenters`: split on the first comma,
strip both parts; the given name is empty when no comma is present. -/
def splitName (name : String) : Presenter :=
  let p := splitFirstComma name.data
  { surname := String.mk (stripChars p.1)
    given_name :=
      match p.2 with
      | some t => String.mk (stripChars t)
      | none => "" }

/-- `ZoteroPresentation.get_presenters`: one presenter per creator entry
whose content type is `per` and whose name is non-empty, in order. -/
def get_presenters (bag : FieldBag) : List Presenter :=
  bag.creator.filterMap
    (fun c =>
      if c.content.type = "per" then
        if c.content.name ≠ "" then some (splitName c.content.name) else none
      else none)

/-- A character matched by the regex metacharacter `.` (anything but a
newline, since `MEETING_PATTERN` is compiled without `re.DOTALL`). -/
def dotChar (c : Char) : Bool := c ≠ '\n'

/-- Whether `\d{4}` matches at offset `k` of `s` (four consecutive decimal
digits starting at `k`). -/
def digitsAt (s : List Char) (k : Nat) : Bool :=
  decide (k + 4 ≤ s.length) && ((s.drop k).take 4).all Char.isDigit

/-- Whether the mandatory part `.*\d{4}` of `MEETING_PATTERN` succeeds at the
current position with the greedy `.*` consuming exactly `k` characters. -/
def attemptK (s : List Char) (k : Nat) : Bool :=
  (s.take k).all dotChar && digitsAt s k

/-- Search `n, n-1, ..., 0` for the first `k` with `p k = true`: the
backtracking order of a greedy `.*`, which yields the largest viable `k`. -/
def findDown (p : Nat → Bool) : Nat → Option Nat
  | 0 => if p 0 then some 0 else none
  | n + 1 => if p (n + 1) then some (n + 1) else findDown p n

/-- The optional group `(?:[,.] (?P<locality>[^0-9]+))?` applied to the text
remaining after the meeting capture: a comma or period, a space, then a
greedy non-empty run of non-digit characters (unanchored, so the run simply
stops before the next digit). -/
def localityGroup (tail : List Char) : Option (List Char) :=
  match tail with
  | c :: ' ' :: rest =>
    if c = ',' || c = '.' then
      let run := rest.takeWhile (fun d => !d.isDigit)
      if run.isEmpty then none else some run
    else none
  | _ => none

/-- One match attempt of `MEETING_PATTERN` at the start of `s`: the greedy
`.*` takes the largest `k` whose characters are all `.`-matchable and that is
followed by four digits; the meeting capture is those `k + 4` characters and
the optional locality group is tried on the remainder.  Whether the optional
group succeeds never forces further backtracking, because the group may
always match empty. -/
def matchAt (s : List Char) : Option (List Char × Option (List Char)) :=
  match findDown (attemptK s) s.length with
  | none => none
  | some k => some (s.take (k + 4), localityGroup (s.drop (k + 4)))

/-- `MEETING_PATTERN.search`: try a match attempt at each position from the
left and return the first success. -/
def meetingSearch : List Char → Option (List Char × Option (List Char))
  | [] => none
  | c :: rest =>
    match matchAt (c :: rest) with
    | some r => some r
    | none => meetingSearch rest

/-- Python `str.rstrip('.')`: drop trailing period characters. -/
def rstripDot (l : List Char) : List Char :=
  (l.reverse.dropWhile (fun c => c = '.')).reverse

/-- The body of the loop in `get_meeting_name_locality`, acting on the
`(meeting, locality)` accumulator: a `source` entry with qualifier
`conference` and non-empty content is searched with `MEETING_PATTERN`; on a
match the meeting is overwritten, and the locality is overwritten (with
trailing periods stripped) only when the locality group matched. -/
def meetingStep (st : String × String) (e : SEntry) : String × String :=
  if e.qualifier = "conference" then
    if e.content = "" then st
    else
      match meetingSearch e.content.data with
      | none => st
      | some (m, loc) =>
        (String.mk m,
          match loc with
          | some l => String.mk (rstripDot l)
          | none => st.2)
  else st

/-- The loop of `get_meeting_name_locality` over the `source` entries,
starting from the empty meeting and locality. -/
def meetingFold (sources : List SEntry) : String × String :=
  sources.foldl meetingStep ("", "")

/-- `ZoteroPresentation.get_meeting_name_locality`. -/
def get_meeting_name_locality (bag : FieldBag) : String × String :=
  meetingFold bag.source

/-- The flat attribute set computed by `ZoteroItem.__init__` together with
`ZoteroPresentation.__init__`. -/
structure ExtractedRecord where
  about_uri : String
  title : String
  subjects : List String
  abstract : String
  creation_date : String
  access : String
  languages : List String
  presenters : List Presenter
  relations : List String
  description : String
  meeting : String
  locality : String
  deriving DecidableEq, Repr

/-- Field extraction for one record: the attribute assignments performed by
the `ZoteroItem` and `ZoteroPresentation` constructors. -/
def extractPresentation (bag : FieldBag) : ExtractedRecord :=
  { about_uri := get_about_uri bag
    title := get_title bag
    subjects := get_subjects bag
    abstract := get_abstract bag
    creation_date := get_creation_date bag
    access := get_access bag
    languages := get_languages bag
    presenters := get_presenters bag
    relations := get_relations bag
    description := get_description bag
    meeting := (get_meeting_name_locality bag).1
    locality := (get_meeting_name_locality bag).2 }

/-- An ElementTree element: tag, attributes, optional text (freshly created
elements have text `none`; the source assigns `.text` explicitly, possibly to
the empty string) and an ordered list of children. -/
inductive XNode where
  | elem : String → List (String × String) → Option String → List XNode → XNode

/-- Tag of an element. -/
def XNode.tag : XNode → String
  | .elem t _ _ _ => t

/-- Text of an element. -/
def XNode.text : XNode → Option String
  | .elem _ _ tx _ => tx

/-- Children of an element. -/
def XNode.children : XNode → List XNode
  | .elem _ _ _ ch => ch

/-- `ZoteroPresentation.generate_record`: the fixed-shape Zotero RDF subtree
built for one presentation, with children appended in source order. -/
def generate_record (r : ExtractedRecord) : XNode :=
  .elem "bib:ConferenceProceedings" [("rdf:about", r.about_uri)] none
    ([.elem "z:itemType" [] (some "presentation") [],
      .elem "dc:publisher" [] none
        [.elem "foaf:Organization" [] none
          [.elem "vcard:adr" [] none
            [.elem "vcard:Address" [] none
              [.elem "vcard:locality" [] (some r.locality) []]]]],
      .elem "z:presenters" [] none
        [.elem "rdf:Seq" [] none
          (r.presenters.map (fun p =>
            XNode.elem "rdf:li" [] none
              [.elem "foaf:Person" [] none
                [.elem "foaf:surname" [] (some p.surname) [],
                 .elem "foaf:givenName" [] (some p.given_name) []]]))]]
     ++ r.subjects.map (fun s => XNode.elem "dc:subject" [] (some s) [])
     ++ [.elem "dc:title" [] (some r.title) [],
         .elem "dcterms:abstract" [] (some r.abstract) [],
         .elem "dc:date" [] (some r.creation_date) []]
     ++ r.languages.map (fun l => XNode.elem "z:language" [] (some l) [])
     ++ [.elem "dc:identifier" [] none
           [.elem "dcterms:URI" [] none
             [.elem "rdf:value" [] (some r.about_uri) []]],
         .elem "dc:rights" [] (some r.access) [],
         .elem "dc:description" [] (some r.description) [],
         .elem "z:meetingName" [] (some r.meeting) []])

/-- Heap of Python list objects, indexed by address; records are opaque and
represented by numbers.  This makes CPython's aliasing of the one
default-argument list explicit. -/
structure PyListStore where
  cells : List (List Nat)
  deriving DecidableEq, Repr

/-- Read the list object at an address. -/
def PyListStore.get (s : PyListStore) (a : Nat) : List Nat :=
  s.cells.getD a []

/-- Replace the list object at an address. -/
def PyListStore.set (s : PyListStore) (a : Nat) (v : List Nat) : PyListStore :=
  ⟨s.cells.set a v⟩

/-- A `ZoteroXML` instance: its `records` attribute is a reference to a list
object in the store. -/
structure ZoteroXML where
  records : Nat
  deriving DecidableEq, Repr

/-- The store right after the module is loaded: evaluating the default
expression `records=[]` in the `def __init__` line allocates exactly one
empty list object, here at address `0`. -/
def zoteroDefaultStore : PyListStore := ⟨[[]]⟩

/-- Address of the single default-argument list object. -/
def zoteroDefaultAddr : Nat := 0

/-- `ZoteroXML()` — construction without a `records` argument: the instance
binds its `records` attribute to the already-existing default list object,
allocating nothing. -/
def ZoteroXML.mkDefault : ZoteroXML := ⟨zoteroDefaultAddr⟩

/-- `ZoteroXML(records=lst)` — construction with an explicit list: modelled
as allocation of a fresh list object. -/
def ZoteroXML.mkWithRecords (s : PyListStore) (init : List Nat) :
    PyListStore × ZoteroXML :=
  (⟨s.cells ++ [init]⟩, ⟨s.cells.length⟩)

/-- `ZoteroXML.add_item_record`: `self.records.append(record_element)`,
mutating the referenced list object in place. -/
def add_item_record (s : PyListStore) (z : ZoteroXML) (r : Nat) : PyListStore :=
  s.set z.records (s.get z.records ++ [r])

/-- The record sequence an instance observes through its reference. -/
def ZoteroXML.recordsOf (s : PyListStore) (z : ZoteroXML) : List Nat :=
  s.get z.records

/-- The year filter inside `main`: scan the `date` entries and take the
content of the first entry with qualifier `creation`, breaking immediately —
even when that content is empty.  `none` when no creation-qualified entry
exists (`creation_date` stays Python `None`). -/
def filterCreationDate (bag : FieldBag) : Option String :=
  (bag.date.find? (fun e => e.qualifier = "creation")).map
    (fun e => e.content)

/-- The keep decision of `main` for a configured year filter: the record
survives `continue` exactly when the filter's creation date is present,
non-empty, and contains the year string as a substring. -/
def yearKeep (year : String) (bag : FieldBag) : Bool :=
  match filterCreationDate bag with
  | none => false
  | some d => d ≠ "" && decide (year.data <:+: d.data)

/-- Name splitting as the specification words it: the surname is the trimmed
text before the first comma of the name and the given name is the trimmed
text after the first comma, empty when the name contains no comma. -/
def specSplitName (name : String) : Presenter :=
  { surname := String.mk (stripChars (name.data.takeWhile (fun c => c ≠ ',')))
    given_name :=
      if name.data.any (fun c => c = ',') then
        String.mk (stripChars ((name.data.dropWhile (fun c => c ≠ ',')).drop 1))
      else "" }

/-! Helper lemmas. -/

/-- A first-match scan is the head of the filtered list. -/
theorem find?_eq_head?_filter {α : Type} (p : α → Bool) (l : List α) :
    l.find? p = (l.filter p).head? := by
  induction l with
  | nil => rfl
  | cons x xs ih =>
    cases h : p x with
    | true => rw [List.find?_cons_of_pos _ h, List.filter_cons, if_pos h]; rfl
    | false =>
      rw [List.find?_cons_of_neg _ (by simp [h]), List.filter_cons,
        if_neg (by simp [h]), ih]

/-- The overwriting loop of `get_about_uri` keeps the last matching entry:
it equals a first-match scan over the reversed list. -/
theorem foldl_overwrite_eq (l : List SEntry) (acc : String) :
    l.foldl (fun uri e => if e.qualifier = "itemURL" then e.content else uri) acc =
      match l.reverse.find? (fun e => e.qualifier = "itemURL") with
      | some e => e.content
      | none => acc := by
  induction l using List.reverseRecOn generalizing acc with
  | nil => rfl
  | append_singleton xs x ih =>
    by_cases h : x.qualifier = "itemURL"
    · simp [List.foldl_append, List.reverse_append, h]
    · simp [List.foldl_append, List.reverse_append, h, ih]

/-- Strengthening a successful qualifier scan with a non-emptiness test
keeps the same witness when that witness has non-empty content. -/
theorem find?_conj_some (l : List SEntry) (qual : String) (e : SEntry)
    (h : l.find? (fun x => x.qualifier = qual) = some e) (he : e.content ≠ "") :
    l.find? (fun x => x.qualifier = qual && x.content ≠ "") = some e := by
  induction l with
  | nil => simp at h
  | cons x xs ih =>
    by_cases hx : x.qualifier = qual
    · rw [List.find?_cons_of_pos _ (by simp [hx])] at h
      injection h with h
      subst h
      exact List.find?_cons_of_pos _ (by simp [hx, he])
    · rw [List.find?_cons_of_neg _ (by simp [hx])] at h
      rw [List.find?_cons_of_neg _ (by simp [hx])]
      exact ih h

/-- Strengthening a failed qualifier scan with a further test still fails. -/
theorem find?_conj_none (l : List SEntry) (qual : String)
    (h : l.find? (fun x => x.qualifier = qual) = none) :
    l.find? (fun x => x.qualifier = qual && x.content ≠ "") = none := by
  rw [List.find?_eq_none] at h ⊢
  intro x hx
  have hq := h x hx
  simp only [Bool.not_eq_true, decide_eq_false_iff_not] at hq
  simp [hq]

/-- Characterization of `splitFirstComma` through `takeWhile`/`dropWhile`. -/
theorem splitFirstComma_eq (l : List Char) :
    splitFirstComma l =
      (l.takeWhile (fun c => c ≠ ','),
        if l.any (fun c => c = ',') then
          some ((l.dropWhile (fun c => c ≠ ',')).drop 1)
        else none) := by
  induction l with
  | nil => rfl
  | cons c t ih =>
    by_cases h : c = ','
    · subst h
      simp [splitFirstComma, List.takeWhile_cons, List.dropWhile_cons, List.any_cons]
    · simp [splitFirstComma, List.takeWhile_cons, List.dropWhile_cons,
        List.any_cons, h, ih]

/-- The implementation's name split agrees with the specification's. -/
theorem splitName_eq_spec (name : String) : splitName name = specSplitName name := by
  unfold splitName specSplitName
  rw [splitFirstComma_eq]
  by_cases h : name.data.any (fun c => c = ',') <;> simp [h]

/-- `findDown` returns `t` when `p` holds at `t` and fails strictly above. -/
theorem findDown_eq_some (p : Nat → Bool) (t : Nat) :
    ∀ n, t ≤ n → p t = true → (∀ k, t < k → k ≤ n → p k = false) →
      findDown p n = some t := by
  intro n
  induction n with
  | zero =>
    intro ht hp _
    have h0 : t = 0 := by omega
    subst h0
    simp [findDown, hp]
  | succ n ih =>
    intro ht hp hk
    by_cases h : t = n + 1
    · subst h
      simp [findDown, hp]
    · have hn1 : p (n + 1) = false := hk (n + 1) (by omega) (by omega)
      simp only [findDown, hn1, Bool.false_eq_true, if_false]
      exact ih (by omega) hp (fun k h1 h2 => hk k h1 (by omega))

/-- A match attempt on `m ++ tail` where `m` ends in four digits, is
`.`-matchable throughout, and no four-digit run starts beyond `m`'s year:
the greedy meeting capture is exactly `m`, and the locality group is tried
on `tail`. -/
theorem matchAt_decomp (m tail : List Char)
    (hlen : 4 ≤ m.length)
    (hdig : ((m.drop (m.length - 4)).all Char.isDigit) = true)
    (hdot : ((m.take (m.length - 4)).all dotChar) = true)
    (hmax : ∀ k, k ≤ (m ++ tail).length → m.length - 4 < k →
      digitsAt (m ++ tail) k = false) :
    matchAt (m ++ tail) = some (m, localityGroup tail) := by
  have hlenapp : (m ++ tail).length = m.length + tail.length := by
    simp
  have hattempt : attemptK (m ++ tail) (m.length - 4) = true := by
    have h1 : List.take (m.length - 4) (m ++ tail) = List.take (m.length - 4) m :=
      List.take_append_of_le_length (by omega)
    have h2 : List.drop (m.length - 4) (m ++ tail) =
        List.drop (m.length - 4) m ++ tail :=
      List.drop_append_of_le_length (by omega)
    have hlen4 : (List.drop (m.length - 4) m).length = 4 := by
      rw [List.length_drop]
      omega
    have h3 : List.take 4 (List.drop (m.length - 4) m ++ tail) =
        List.drop (m.length - 4) m :=
      List.take_left' hlen4
    have h4 : m.length - 4 + 4 ≤ (m ++ tail).length := by
      rw [List.length_append]
      omega
    unfold attemptK digitsAt
    rw [h1, h2, h3]
    simp [hdot, hdig]
    omega
  have hfound : findDown (attemptK (m ++ tail)) (m ++ tail).length =
      some (m.length - 4) := by
    refine findDown_eq_some _ _ _ (by rw [List.length_append]; omega) hattempt ?_
    intro k h1 h2
    unfold attemptK
    rw [hmax k h2 h1]
    simp
  have hm4 : m.length - 4 + 4 = m.length := by omega
  unfold matchAt
  rw [hfound]
  show some ((m ++ tail).take (m.length - 4 + 4),
      localityGroup ((m ++ tail).drop (m.length - 4 + 4))) =
    some (m, localityGroup tail)
  rw [hm4, List.take_left, List.drop_left]

/-- A successful match attempt at the head position is what the search
returns. -/
theorem meetingSearch_cons (a : Char) (rest : List Char)
    (r : List Char × Option (List Char))
    (h : matchAt (a :: rest) = some r) : meetingSearch (a :: rest) = some r := by
  unfold meetingSearch
  rw [h]

/-- Evaluation of the conference loop on a single matching entry. -/
theorem meetingFold_single (content : String) (m : List Char)
    (loc : Option (List Char))
    (hne : content ≠ "")
    (hs : meetingSearch content.data = some (m, loc)) :
    meetingFold [⟨"conference", content⟩] =
      (String.mk m,
        match loc with
        | some l => String.mk (rstripDot l)
        | none => "") := by
  unfold meetingFold meetingStep
  simp [hne, hs]
  cases loc <;> rfl

/-! Claim theorems. -/

/-- C1 (counterexample): on the conference content
`"Foo Conf, Dallas. 2022"` the extraction does not yield the claimed pair
meeting `"Foo Conf, 2022"` with locality `"Dallas"`. -/
theorem C1_counterexample :
    get_meeting_name_locality
        { source := [⟨"conference", "Foo Conf, Dallas. 2022"⟩] } ≠
      ("Foo Conf, 2022", "Dallas") := by decide

/-- C1 (amended): for a FieldBag containing a source entry with qualifier
`conference` and content `"Foo Conf, Dallas. 2022"`, the greedy meeting
capture consumes everything up to the trailing year, so the meeting is the
whole string `"Foo Conf, Dallas. 2022"` and no locality is extracted. -/
theorem C1_meeting_dallas :
    get_meeting_name_locality
        { source := [⟨"conference", "Foo Conf, Dallas. 2022"⟩] } =
      ("Foo Conf, Dallas. 2022", "") := by decide

/-- C2: the `records=[]` default argument of `ZoteroXML.__init__` is one
list object created when the class body is evaluated, so every instance
constructed without an explicit `records` argument aliases that single list:
after `add_item_record` on one default-constructed instance, another
default-constructed instance observes the appended record instead of an
unchanged empty sequence, while an instance constructed with an explicit
fresh list stays empty. -/
theorem C2_default_records_shared :
    ZoteroXML.recordsOf
        (add_item_record zoteroDefaultStore ZoteroXML.mkDefault 7)
        ZoteroXML.mkDefault = [7] ∧
    ZoteroXML.recordsOf zoteroDefaultStore ZoteroXML.mkDefault = [] ∧
    ZoteroXML.recordsOf
        (add_item_record (ZoteroXML.mkWithRecords zoteroDefaultStore []).1
          ZoteroXML.mkDefault 7)
        (ZoteroXML.mkWithRecords zoteroDefaultStore []).2 = [] := by decide

/-- C4 (counterexample): when the first `officialtitle`-qualified title
entry has empty content and a later one has content `"Real Title"`, the
extracted title is `"Real Title"`, not the empty string: the empty match
does not count. -/
theorem C4_counterexample :
    get_title
        { title := [⟨"officialtitle", ""⟩, ⟨"officialtitle", "Real Title"⟩] } =
      "Real Title" ∧ ("Real Title" : String) ≠ "" := by decide

/-- C4 (amended): for the single-value first-match attributes (title,
abstract, creationDate, access), an entry with the matching qualifier but
empty content does not count as the match — the scan skips it, so
prepending such an entry to the scanned field never changes the extracted
attribute. -/
theorem C4_empty_match_skipped (bag : FieldBag) (e : SEntry) (es : List SEntry)
    (h : e.content = "") :
    get_title { bag with title := e :: es } = get_title { bag with title := es } ∧
    get_abstract { bag with description := e :: es } =
      get_abstract { bag with description := es } ∧
    get_creation_date { bag with date := e :: es } =
      get_creation_date { bag with date := es } ∧
    get_access { bag with rights := e :: es } =
      get_access { bag with rights := es } := by
  refine ⟨?_, ?_, ?_, ?_⟩ <;>
    simp [get_title, get_abstract, get_creation_date, get_access,
      List.find?_cons, h]

/-- C4 (witness): instantiation of the amended claim at a concrete record
whose skipped entry precedes a non-empty `"Real Title"` entry. -/
theorem C4_witness :
    get_title
        { title := [⟨"officialtitle", ""⟩, ⟨"officialtitle", "Real Title"⟩] } =
      get_title { title := [⟨"officialtitle", "Real Title"⟩] } ∧
    get_abstract
        { description := [⟨"officialtitle", ""⟩, ⟨"officialtitle", "Real Title"⟩] } =
      get_abstract { description := [⟨"officialtitle", "Real Title"⟩] } ∧
    get_creation_date
        { date := [⟨"officialtitle", ""⟩, ⟨"officialtitle", "Real Title"⟩] } =
      get_creation_date { date := [⟨"officialtitle", "Real Title"⟩] } ∧
    get_access
        { rights := [⟨"officialtitle", ""⟩, ⟨"officialtitle", "Real Title"⟩] } =
      get_access { rights := [⟨"officialtitle", "Real Title"⟩] } :=
  C4_empty_match_skipped {} ⟨"officialtitle", ""⟩
    [⟨"officialtitle", "Real Title"⟩] rfl

/-- C6: with at least two `itemURL`-qualified identifier entries, the
extracted about-URI is the content of the last such entry — the scan never
breaks early, and an empty last entry yields the empty string. -/
theorem C6_about_uri_last_wins (bag : FieldBag) (e : SEntry)
    (_h2 : 2 ≤ (bag.identifier.filter (fun x => x.qualifier = "itemURL")).length)
    (hl : (bag.identifier.filter (fun x => x.qualifier = "itemURL")).getLast? =
      some e) :
    get_about_uri bag = e.content := by
  have hbridge :
      (bag.identifier.filter (fun x => x.qualifier = "itemURL")).getLast? =
        bag.identifier.reverse.find? (fun x => x.qualifier = "itemURL") := by
    rw [List.getLast?_eq_head?_reverse, ← List.filter_reverse,
      ← find?_eq_head?_filter]
  rw [hbridge] at hl
  rw [get_about_uri, foldl_overwrite_eq, hl]

/-- C6 (witness): two `itemURL` entries where the later one is empty — the
extracted about-URI is the empty string although the earlier entry was
non-empty. -/
theorem C6_witness :
    get_about_uri
        { identifier := [⟨"itemURL", "https://example.org/a"⟩, ⟨"itemURL", ""⟩] } =
      "" :=
  C6_about_uri_last_wins
    { identifier := [⟨"itemURL", "https://example.org/a"⟩, ⟨"itemURL", ""⟩] }
    ⟨"itemURL", ""⟩ (by decide) (by decide)

/-- C7: a FieldBag lacking a field entirely (the field's entry list is
empty, exactly what `untl_data.get(field, [])` produces for an absent key)
yields the empty default for every attribute derived from that field, and
extraction is total, so no exception is possible. -/
theorem C7_absent_field_defaults (bag : FieldBag) :
    (bag.identifier = [] → get_about_uri bag = "") ∧
    (bag.title = [] → get_title bag = "") ∧
    (bag.subject = [] → get_subjects bag = []) ∧
    (bag.description = [] → get_abstract bag = "") ∧
    (bag.date = [] → get_creation_date bag = "") ∧
    (bag.rights = [] → get_access bag = "") ∧
    (bag.language = [] → get_languages bag = []) ∧
    (bag.creator = [] → get_presenters bag = []) ∧
    (bag.relation = [] → get_relations bag = [] ∧ get_description bag = "") ∧
    (bag.source = [] → get_meeting_name_locality bag = ("", "")) := by
  refine ⟨?_, ?_, ?_, ?_, ?_, ?_, ?_, ?_, ?_, ?_⟩ <;> intro h <;>
    simp [get_about_uri, get_title, get_subjects, get_abstract,
      get_creation_date, get_access, ACCESS_lookup, get_languages,
      get_presenters, get_relations, get_description, String.join,
      get_meeting_name_locality, meetingFold, h]

/-- C7 (witness): the completely empty FieldBag extracts to empty defaults
for every attribute. -/
theorem C7_witness :
    get_about_uri ({} : FieldBag) = "" ∧
    get_title ({} : FieldBag) = "" ∧
    get_subjects ({} : FieldBag) = [] ∧
    get_abstract ({} : FieldBag) = "" ∧
    get_creation_date ({} : FieldBag) = "" ∧
    get_access ({} : FieldBag) = "" ∧
    get_languages ({} : FieldBag) = [] ∧
    get_presenters ({} : FieldBag) = [] ∧
    get_relations ({} : FieldBag) = [] ∧
    get_description ({} : FieldBag) = "" ∧
    get_meeting_name_locality ({} : FieldBag) = ("", "") := by
  have h := C7_absent_field_defaults ({} : FieldBag)
  exact ⟨h.1 rfl, h.2.1 rfl, h.2.2.1 rfl, h.2.2.2.1 rfl, h.2.2.2.2.1 rfl,
    h.2.2.2.2.2.1 rfl, h.2.2.2.2.2.2.1 rfl, h.2.2.2.2.2.2.2.1 rfl,
    (h.2.2.2.2.2.2.2.2.1 rfl).1, (h.2.2.2.2.2.2.2.2.1 rfl).2,
    h.2.2.2.2.2.2.2.2.2 rfl⟩

/-- C3 (counterexample): on a FieldBag whose first creation-qualified date
entry is empty and whose second is `"2020"`, the year filter drops the
record (its own scan breaks on the empty first entry) although the Field
Extractor's creationDate is `"2020"`, which is non-empty and contains the
filter string — so the filter decision does not agree with the extractor. -/
theorem C3_counterexample :
    yearKeep "2020" { date := [⟨"creation", ""⟩, ⟨"creation", "2020"⟩] } = false ∧
    get_creation_date { date := [⟨"creation", ""⟩, ⟨"creation", "2020"⟩] } =
      "2020" ∧
    "2020".data <:+: "2020".data := by decide

/-- C3 (amended): the year filter scans for the first creation-qualified
date entry and breaks even on empty content, unlike the extractor, which
skips empty matches; whenever the first creation-qualified entry (if any)
has non-empty content the two scans coincide, and then the filter keeps the
record if and only if the extracted creationDate is non-empty and the filter
string occurs as a substring of it. -/
theorem C3_filter_agreement (bag : FieldBag) (year : String)
    (hfirst : Option.all (fun e => e.content ≠ "")
      (bag.date.find? (fun e => e.qualifier = "creation")) = true) :
    (yearKeep year bag = true ↔
      (get_creation_date bag ≠ "" ∧
        year.data <:+: (get_creation_date bag).data)) := by
  unfold yearKeep filterCreationDate get_creation_date
  cases h : bag.date.find? (fun e => e.qualifier = "creation") with
  | none =>
    rw [find?_conj_none _ _ h]
    simp
  | some e =>
    rw [h] at hfirst
    have he : e.content ≠ "" := by simpa using hfirst
    rw [find?_conj_some _ _ _ h he]
    simp [he]

/-- C3 (witness): one non-empty creation date `"2020-05-01"` — the filter
decision coincides with the extractor-based criterion. -/
theorem C3_witness :
    yearKeep "2020" { date := [⟨"creation", "2020-05-01"⟩] } = true ↔
      (get_creation_date { date := [⟨"creation", "2020-05-01"⟩] } ≠ "" ∧
        "2020".data <:+:
          (get_creation_date { date := [⟨"creation", "2020-05-01"⟩] }).data) :=
  C3_filter_agreement { date := [⟨"creation", "2020-05-01"⟩] } "2020" (by decide)

/-- C5 (counterexample): in `"Conf 2020, Austin 5"` the text after the
separator, `"Austin 5"`, contains a digit before the end of the string, yet
a locality is extracted: the unanchored `[^0-9]+` capture simply stops
before the digit and yields `"Austin "`. -/
theorem C5_counterexample :
    get_meeting_name_locality
        { source := [⟨"conference", "Conf 2020, Austin 5"⟩] } =
      ("Conf 2020", "Austin ") ∧ ("Austin " : String) ≠ "" := by decide

/-- C5 (amended): after the year-ending meeting segment, a comma-or-period
plus space followed by at least one non-digit character always captures a
locality: the capture is the maximal digit-free run after the separator
(trailing periods stripped), and it need not extend to the end of the
string, since the pattern is unanchored. -/
theorem C5_locality_unanchored (m frag : List Char) (c : Char)
    (hlen : 4 ≤ m.length)
    (hdig : ((m.drop (m.length - 4)).all Char.isDigit) = true)
    (hdot : ((m.take (m.length - 4)).all dotChar) = true)
    (hmax : ∀ k, k ≤ (m ++ c :: ' ' :: frag).length → m.length - 4 < k →
      digitsAt (m ++ c :: ' ' :: frag) k = false)
    (hsep : c = ',' ∨ c = '.')
    (hfrag : frag.takeWhile (fun d => !d.isDigit) ≠ []) :
    get_meeting_name_locality
        { source := [⟨"conference", String.mk (m ++ c :: ' ' :: frag)⟩] } =
      (String.mk m,
        String.mk (rstripDot (frag.takeWhile (fun d => !d.isDigit)))) := by
  have hm := matchAt_decomp m (c :: ' ' :: frag) hlen hdig hdot hmax
  have hloc : localityGroup (c :: ' ' :: frag) =
      some (frag.takeWhile (fun d => !d.isDigit)) := by
    cases hrun : frag.takeWhile (fun d => !d.isDigit) with
    | nil => exact absurd hrun hfrag
    | cons a l =>
      rcases hsep with h | h <;> subst h <;> simp [localityGroup, hrun]
  rw [hloc] at hm
  cases m with
  | nil => simp at hlen
  | cons a m2 =>
    have hne : String.mk ((a :: m2) ++ c :: ' ' :: frag) ≠ "" := by
      simp [String.ext_iff]
    have hsearch := meetingSearch_cons a (m2 ++ c :: ' ' :: frag) _ hm
    show meetingFold
        [⟨"conference", String.mk ((a :: m2) ++ c :: ' ' :: frag)⟩] = _
    rw [meetingFold_single _ _ _ hne hsearch]

/-- C5 (witness): the amended theorem applied to meeting `"Conf 2020"`,
separator comma, and fragment `"Austin 5"`, whose digit-free run is
`"Austin "`. -/
theorem C5_witness :
    get_meeting_name_locality
        { source :=
          [⟨"conference",
            String.mk ("Conf 2020".data ++ ',' :: ' ' :: "Austin 5".data)⟩] } =
      (String.mk "Conf 2020".data,
        String.mk (rstripDot ("Austin 5".data.takeWhile (fun d => !d.isDigit)))) :=
  C5_locality_unanchored "Conf 2020".data "Austin 5".data ','
    (by decide) (by decide) (by decide) (by decide) (Or.inl rfl) (by decide)

/-- C8: each creator entry with content type `per` and non-empty name
contributes, in entry order, exactly one presenter obtained by splitting the
name at the first comma into a trimmed surname and a trimmed given name
(empty for a comma-free name); other creator entries contribute nothing.
Concretely, `"Smith, Jane Q."` splits into surname `"Smith"` and given name
`"Jane Q."`, and `"Smith"` into surname `"Smith"` and empty given name. -/
theorem C8_presenters (bag : FieldBag) :
    get_presenters bag =
      bag.creator.filterMap (fun c =>
        if c.content.type = "per" then
          if c.content.name ≠ "" then some (specSplitName c.content.name)
          else none
        else none) ∧
    splitName "Smith, Jane Q." = ⟨"Smith", "Jane Q."⟩ ∧
    splitName "Smith" = ⟨"Smith", ""⟩ := by
  refine ⟨?_, by decide, by decide⟩
  unfold get_presenters
  congr 1
  funext c
  rw [splitName_eq_spec]

/-- C10: in the conference scan, the locality accumulator is never reset
once set: appending a matching entry whose pattern match has no locality
group overwrites only the meeting and keeps the previous locality, and
appending a matching entry whose content fails the pattern leaves both
accumulated values in place. -/
theorem C10_locality_sticky (es : List SEntry) (e : SEntry) (m2 : List Char)
    (hq : e.qualifier = "conference") :
    (e.content ≠ "" → meetingSearch e.content.data = some (m2, none) →
      get_meeting_name_locality { source := es ++ [e] } =
        (String.mk m2, (get_meeting_name_locality { source := es }).2)) ∧
    (e.content ≠ "" → meetingSearch e.content.data = none →
      get_meeting_name_locality { source := es ++ [e] } =
        get_meeting_name_locality { source := es }) := by
  constructor <;> intro hne hs <;>
    simp [get_meeting_name_locality, meetingFold, List.foldl_append,
      meetingStep, hq, hne, hs]

/-- C10 (witness): after `"Foo 2020, Austin"` sets locality `"Austin"`, a
later `"Bar 2021"` replaces only the meeting, and a later non-matching
`"no year here"` changes nothing. -/
theorem C10_witness :
    get_meeting_name_locality
        { source := [⟨"conference", "Foo 2020, Austin"⟩,
                     ⟨"conference", "Bar 2021"⟩] } =
      ("Bar 2021", "Austin") ∧
    get_meeting_name_locality
        { source := [⟨"conference", "Foo 2020, Austin"⟩,
                     ⟨"conference", "no year here"⟩] } =
      ("Foo 2020", "Austin") := by
  constructor
  · exact ((C10_locality_sticky [⟨"conference", "Foo 2020, Austin"⟩]
      ⟨"conference", "Bar 2021"⟩ "Bar 2021".data rfl).1
      (by decide) (by decide)).trans (by decide)
  · exact ((C10_locality_sticky [⟨"conference", "Foo 2020, Austin"⟩]
      ⟨"conference", "no year here"⟩ [] rfl).2
      (by decide) (by decide)).trans (by decide)

/-- C9: the generated record subtree lists its children in the fixed order
item-type label, publisher block, presenter list, one element per subject,
title, abstract, creation date, one element per language, identifier block,
rights, description, meeting name; the publisher block always carries the
organization → address → locality skeleton, the presenter list always
carries its sequence skeleton with one item per presenter, and every textual
sub-element is present with its (possibly empty) value. -/
theorem C9_record_structure (r : ExtractedRecord) :
    ((generate_record r).children.map XNode.tag =
      ["z:itemType", "dc:publisher", "z:presenters"]
        ++ r.subjects.map (fun _ => "dc:subject")
        ++ ["dc:title", "dcterms:abstract", "dc:date"]
        ++ r.languages.map (fun _ => "z:language")
        ++ ["dc:identifier", "dc:rights", "dc:description", "z:meetingName"]) ∧
    (generate_record r).children.head? =
      some (.elem "z:itemType" [] (some "presentation") []) ∧
    ((generate_record r).children)[1]? =
      some (.elem "dc:publisher" [] none
        [.elem "foaf:Organization" [] none
          [.elem "vcard:adr" [] none
            [.elem "vcard:Address" [] none
              [.elem "vcard:locality" [] (some r.locality) []]]]]) ∧
    (((generate_record r).children)[2]?).map
        (fun x => x.children.map XNode.tag) = some ["rdf:Seq"] ∧
    (((generate_record r).children)[2]?).map
        (fun x => x.children.map (fun sq => sq.children.length)) =
      some [r.presenters.length] ∧
    XNode.elem "dc:title" [] (some r.title) [] ∈ (generate_record r).children ∧
    XNode.elem "dcterms:abstract" [] (some r.abstract) [] ∈
      (generate_record r).children ∧
    XNode.elem "dc:date" [] (some r.creation_date) [] ∈
      (generate_record r).children ∧
    XNode.elem "dc:identifier" [] none
        [.elem "dcterms:URI" [] none
          [.elem "rdf:value" [] (some r.about_uri) []]] ∈
      (generate_record r).children ∧
    XNode.elem "dc:rights" [] (some r.access) [] ∈
      (generate_record r).children ∧
    XNode.elem "dc:description" [] (some r.description) [] ∈
      (generate_record r).children ∧
    XNode.elem "z:meetingName" [] (some r.meeting) [] ∈
      (generate_record r).children := by
  refine ⟨?_, rfl, rfl, ?_, ?_, ?_, ?_, ?_, ?_, ?_, ?_, ?_⟩ <;>
    simp [generate_record, XNode.children, XNode.tag, List.map_append,
      List.map_map, Function.comp_def]

end UntlZotero
